import Mathlib

/-!
Verification development for the mlflow-modal deployment plugin.

The repository ships an MLflow deployment plugin targeting the Modal
serverless platform.  Its functional core is a configuration normalizer
(`_apply_custom_config`, `_validate_gpu_config`) and a code-template
generator (`_generate_modal_app_code`) that renders the source text of a
small Modal serving application, plus a thin `create_deployment`
orchestration.  The implementation module itself is not part of the
checked-out sources (only its tests, examples and callers are), so the
definitions below are modelled from the specification document, each one
marked as such; the streaming-URL fallback of the end-to-end test is
embedded directly from `tests/e2e_test.py`.

Strings are modelled by Lean `String` (a packed `List Char`); substring
occurrence is `List.IsInfix` on the underlying character lists, which
matches Python's `in` operator on text.
-/

set_option maxRecDepth 4000

/-- Decimal digit character for `n % 10`. -/
def digitChar (n : Nat) : Char :=
  match n % 10 with
  | 0 => '0' | 1 => '1' | 2 => '2' | 3 => '3' | 4 => '4'
  | 5 => '5' | 6 => '6' | 7 => '7' | 8 => '8' | _ => '9'

/-- Fuel-driven accumulator rendering of a natural number in decimal. -/
def natCharsAux : Nat → Nat → List Char → List Char
  | 0, _, acc => acc
  | fuel + 1, n, acc =>
    if n / 10 = 0 then digitChar n :: acc
    else natCharsAux fuel (n / 10) (digitChar n :: acc)

/-- Decimal digit list of a natural number (as Python `str` renders ints). -/
def natChars (n : Nat) : List Char := natCharsAux (n + 1) n []

/-- Decimal string of a natural number. -/
def natStr (n : Nat) : String := String.mk (natChars n)

/-- Join character lists with a single separator character between them,
the character-level counterpart of `"\n".join(lines)`. -/
def joinC (x : Char) : List (List Char) → List Char
  | [] => []
  | [s] => s
  | s :: ss => s ++ x :: joinC x ss

/-- Wrap a string in double quotes, as the generator's templates do. -/
def q (s : String) : String := "\"" ++ s ++ "\""

/-- Occurrence of `pat` inside `code`, Python's `pat in code` on text. -/
abbrev containsStr (code pat : String) : Prop := pat.data <:+: code.data

/-- Values stored in a flat deployment-configuration mapping.  The spec's
data model is a flat mapping from option name to value; numbers, strings,
booleans, string lists and an explicit `None` cover every option it
documents (the fractional `cpu` option is carried as its rendered decimal
text, since nothing in the repository inspects it numerically). -/
inductive ConfigVal where
  | vNone
  | vNat (n : Nat)
  | vStr (s : String)
  | vBool (b : Bool)
  | vList (l : List String)
deriving DecidableEq, Repr

/-- A deployment configuration: a flat association of option names to
values, insertion-ordered like a Python `dict`. -/
abbrev Config := List (String × ConfigVal)

/-- Lookup of a key, first binding wins (bindings are unique in a dict). -/
def getVal : Config → String → Option ConfigVal
  | [], _ => none
  | (k', v') :: rest, k => if k' = k then some v' else getVal rest k

/-- Dict update: replace the binding of `k` if present, else append it. -/
def setVal : Config → String → ConfigVal → Config
  | [], k, v => [(k, v)]
  | (k', v') :: rest, k, v =>
    if k' = k then (k, v) :: rest else (k', v') :: setVal rest k v

/-- Dict deletion of a key. -/
def removeKey : Config → String → Config
  | [], _ => []
  | (k', v') :: rest, k =>
    if k' = k then removeKey rest k else (k', v') :: removeKey rest k

/-- The keys of a configuration, in order. -/
def keysOf (c : Config) : List String := c.map Prod.fst

/-- Numeric option with default. -/
def getNat (c : Config) (k : String) (d : Nat) : Nat :=
  match getVal c k with
  | some (.vNat n) => n
  | _ => d

/-- String option with default. -/
def getStr (c : Config) (k : String) (d : String) : String :=
  match getVal c k with
  | some (.vStr s) => s
  | _ => d

/-- Boolean option with default. -/
def getBool (c : Config) (k : String) (d : Bool) : Bool :=
  match getVal c k with
  | some (.vBool b) => b
  | _ => d

/-- String-list option, defaulting to the empty list. -/
def getStrList (c : Config) (k : String) : List String :=
  match getVal c k with
  | some (.vList l) => l
  | _ => []

/-- Optional string option. -/
def getStrOpt (c : Config) (k : String) : Option String :=
  match getVal c k with
  | some (.vStr s) => some s
  | _ => none

/-- A GPU specification: absent, a single accelerator descriptor, or an
ordered fallback list of descriptors (spec, data model section). -/
inductive GpuSpec where
  | absent
  | single (s : String)
  | fallback (l : List String)
deriving DecidableEq, Repr

/-- The accelerator descriptors carried by a GPU specification. -/
def gpuNames : GpuSpec → List String
  | .absent => []
  | .single s => [s]
  | .fallback l => l

/-- Read the `gpu` option of a configuration as a `GpuSpec`. -/
def getGpu (c : Config) : GpuSpec :=
  match getVal c "gpu" with
  | some (.vStr s) => .single s
  | some (.vList l) => .fallback l
  | _ => .absent

/-- Render the inside of a Python list literal of quoted GPU names,
`", ".join(f) ` style. -/
def gpuListInner : List String → String
  | [] => ""
  | [s] => q s
  | s :: rest => q s ++ ", " ++ gpuListInner rest

/-- Modelled from the spec: the generator emits the GPU specification
literally — `None` when absent, a quoted string for a single descriptor,
and a Python list of quoted strings, order preserved, for a fallback
list (spec section 8, "GPU code emission is literal"). -/
def gpuCodeStr : GpuSpec → String
  | .absent => "None"
  | .single s => q s
  | .fallback l => "[" ++ gpuListInner l ++ "]"

/-- Apply user overrides on top of a configuration, field by field
(`dict.update` semantics). -/
def mergeConfigs (config custom : Config) : Config :=
  custom.foldl (fun acc p => setVal acc p.1 p.2) config

/-- Modelled from the spec: backward-compatible renaming in the
normalizer — if the deprecated key `old` is present it is removed, and
its value is copied to the current key `new` only when `new` is absent;
when both are present the current key's value is authoritative
(spec section 4.1). -/
def remap_deprecated (custom : Config) (old new : String) : Config :=
  match getVal custom old with
  | some v =>
    if (getVal (removeKey custom old) new).isSome
    then removeKey custom old
    else setVal (removeKey custom old) new v
  | none => custom

/-- Modelled from the spec: `_apply_custom_config` of the deployment
client — translate the deprecated option names `container_idle_timeout`
and `allow_concurrent_inputs` to their current names `scaledown_window`
and `concurrent_inputs`, then apply the user overrides over the given
configuration, field by field (spec sections 4.1 and 8). -/
def apply_custom_config (config custom : Config) : Config :=
  mergeConfigs config
    (remap_deprecated
      (remap_deprecated custom "container_idle_timeout" "scaledown_window")
      "allow_concurrent_inputs" "concurrent_inputs")

/-- Modelled from the spec: `_default_deployment_config` — every option
of the external-interface list has a documented default; the spec fixes
`concurrent_inputs = 1` as the default, the other defaults are modelled
(spec sections 3, 6 and 8). -/
def default_deployment_config : Config :=
  [("gpu", .vNone), ("memory", .vNat 512), ("cpu", .vStr "1.0"),
   ("timeout", .vNat 300), ("scaledown_window", .vNat 300),
   ("concurrent_inputs", .vNat 1), ("min_containers", .vNat 0),
   ("max_containers", .vNat 10), ("enable_batching", .vBool false),
   ("max_batch_size", .vNat 8), ("batch_wait_ms", .vNat 100),
   ("python_version", .vStr "3.10"), ("extra_pip_packages", .vList []),
   ("pip_index_url", .vNone), ("pip_extra_index_url", .vNone),
   ("modal_secret", .vNone)]

/-- Strip a trailing `!` (the "dedicated" marker) from a descriptor. -/
def stripBang (l : List Char) : List Char :=
  if l.getLast? = some '!' then l.dropLast else l

/-- Modelled from the spec: the accelerator name of a GPU descriptor —
the part before an optional `:count` replica suffix, with an optional
trailing `!` dedicated marker removed; memory-variant suffixes such as
`-80GB` are part of the name (spec sections 3 and 4.1). -/
def gpuBaseName (desc : String) : String :=
  String.mk (stripBang (List.takeWhile (fun ch => ch ≠ ':') desc.data))

/-- Modelled from the spec: the fixed allow-list of accelerator names the
target platform accepts; it contains every name the tests exercise
(spec section 3, "a fixed allow-list"). -/
def ALLOWED_GPUS : List String :=
  ["T4", "L4", "A10G", "A100", "A100-40GB", "A100-80GB", "L40S",
   "H100", "H200", "B200"]

/-- Modelled from the spec: validation of one GPU descriptor — reject
with a descriptive error when the accelerator name is not in the
allowed set (spec section 4.1). -/
def validate_gpu_desc (desc : String) : Except String Unit :=
  if ALLOWED_GPUS.contains (gpuBaseName desc) then .ok ()
  else .error ("Unsupported GPU type: " ++ desc)

/-- Validate each element of a fallback list independently, failing on
the first invalid descriptor. -/
def validate_gpu_list : List String → Except String Unit
  | [] => .ok ()
  | d :: rest =>
    match validate_gpu_desc d with
    | .ok _ => validate_gpu_list rest
    | .error e => .error e

/-- Modelled from the spec: `_validate_gpu_config` — accept an absent
specification, a single descriptor, or an ordered fallback list with
each element validated independently (spec section 4.1). -/
def validate_gpu_config : GpuSpec → Except String Unit
  | .absent => .ok ()
  | .single s => validate_gpu_desc s
  | .fallback l => validate_gpu_list l

/-- Modelled from the spec: header of the generated application — app
declaration, model location, and the dependency-install step opened with
the current `uv_pip_install` mechanism (spec section 4.2). -/
def headerLines (appName modelPath pv : String) : List String :=
  ["import modal",
   "",
   "app = modal.App(" ++ q appName ++ ")",
   "",
   "MODEL_DIR = " ++ q modelPath,
   "",
   "image = (",
   "    modal.Image.debian_slim(python_version=" ++ q pv ++ ")",
   "    .uv_pip_install(",
   "        \"mlflow\","]

/-- One quoted package specifier per line: the model's declared
requirements plus any configured extra packages. -/
def pkgLines (pkgs : List String) : List String :=
  List.map (fun p => "        " ++ q p ++ ",") pkgs

/-- A single optional line wrapping a quoted configuration value, emitted
only when the option is present. -/
def optLines (pre : String) (o : Option String) (post : String) : List String :=
  match o with
  | some u => [pre ++ q u ++ post]
  | none => []

/-- Closing of the image expression. -/
def closeImageLines : List String := ["    )", ")", ""]

/-- Modelled from the spec: the resource declaration of the serving class
— memory, cpu, the validated GPU specification rendered literally, and
the current (non-deprecated) idle-shutdown and container-bound parameter
names (spec sections 4.2 and 8). -/
def clsLines (g : GpuSpec) (mem : Nat) (cpu : String)
    (tmo sw mn mx : Nat) : List String :=
  ["@app.cls(",
   "    image=image,",
   "    gpu=" ++ gpuCodeStr g ++ ",",
   "    memory=" ++ natStr mem ++ ",",
   "    cpu=" ++ cpu ++ ",",
   "    timeout=" ++ natStr tmo ++ ",",
   "    scaledown_window=" ++ natStr sw ++ ",",
   "    min_containers=" ++ natStr mn ++ ",",
   "    max_containers=" ++ natStr mx ++ ",",
   ")"]

/-- Modelled from the spec: the per-instance concurrency limit is emitted
as a class-level directive only when the configured value differs from
the default of 1; when equal to the default it is omitted entirely
(spec sections 4.2 and 8). -/
def concLines (ci : Nat) : List String :=
  if 1 < ci then ["@modal.concurrent(max_inputs=" ++ natStr ci ++ ")"] else []

/-- The serving-class declaration and model-loading hook. -/
def classHeadLines : List String :=
  ["class MLflowModel:",
   "    @modal.enter()",
   "    def load_model(self):",
   "        import mlflow.pyfunc",
   "        self.model = mlflow.pyfunc.load_model(MODEL_DIR)",
   ""]

/-- Modelled from the spec: dynamic-batching directive, emitted only when
batching is enabled (spec sections 3 and 6). -/
def batchLines (b : Bool) (mbs bwm : Nat) : List String :=
  if b then
    ["    @modal.batched(",
     "        max_batch_size=" ++ natStr mbs ++ ",",
     "        wait_ms=" ++ natStr bwm ++ ",",
     "    )"]
  else []

/-- Modelled from the spec: the two entry points of the serving class —
one synchronous prediction endpoint and one streaming-prediction
endpoint, both declared with the current `@modal.fastapi_endpoint`
mechanism (spec section 4.2). -/
def endpointLines : List String :=
  ["    @modal.fastapi_endpoint(method=\"POST\")",
   "    def predict(self, item: dict):",
   "        import pandas as pd",
   "        df = pd.DataFrame(item)",
   "        preds = self.model.predict(df)",
   "        return \x7b\"predictions\": preds.tolist()\x7d",
   "",
   "    @modal.fastapi_endpoint(method=\"POST\")",
   "    def predict_stream(self, item: dict):",
   "        import json",
   "        import pandas as pd",
   "        from fastapi.responses import StreamingResponse",
   "        def event_gen():",
   "            df = pd.DataFrame(item)",
   "            preds = self.model.predict(df)",
   "            payload = json.dumps(\x7b\"predictions\": preds.tolist()\x7d)",
   "            yield \"data: \" + payload + \"\\n\\n\"",
   "        return StreamingResponse(event_gen(), media_type=\"text/event-stream\")"]

/-- Modelled from the spec: the lines of the generated Modal application,
a pure function of the generator's four arguments (spec section 4.2). -/
def generateLines (appName modelPath : String) (config : Config)
    (reqs : List String) : List String :=
  headerLines appName modelPath (getStr config "python_version" "3.10")
  ++ pkgLines (reqs ++ getStrList config "extra_pip_packages")
  ++ optLines "        index_url=" (getStrOpt config "pip_index_url") ","
  ++ optLines "        extra_index_url=" (getStrOpt config "pip_extra_index_url") ","
  ++ optLines "        secrets=[modal.Secret.from_name(" (getStrOpt config "modal_secret") ")],"
  ++ closeImageLines
  ++ clsLines (getGpu config) (getNat config "memory" 512)
      (getStr config "cpu" "1.0") (getNat config "timeout" 300)
      (getNat config "scaledown_window" 300) (getNat config "min_containers" 0)
      (getNat config "max_containers" 10)
  ++ concLines (getNat config "concurrent_inputs" 1)
  ++ classHeadLines
  ++ batchLines (getBool config "enable_batching" false)
      (getNat config "max_batch_size" 8) (getNat config "batch_wait_ms" 100)
  ++ endpointLines

/-- Modelled from the spec: `_generate_modal_app_code` — the generated
application source, the joined lines of the template (spec section 4.2). -/
def generate_modal_app_code (appName modelPath : String) (config : Config)
    (modelRequirements : List String) : String :=
  String.mk (joinC '\n'
    (List.map String.data (generateLines appName modelPath config modelRequirements)))

/-- The configuration-derived strings interpolated verbatim into the
generated source: app name, model path, python version, rendered cpu,
package specifiers, optional index URLs and secret name, GPU names. -/
def interpStrings (appName modelPath : String) (config : Config)
    (reqs : List String) : List String :=
  [appName, modelPath, getStr config "python_version" "3.10",
   getStr config "cpu" "1.0"]
  ++ reqs ++ getStrList config "extra_pip_packages"
  ++ (getStrOpt config "pip_index_url").toList
  ++ (getStrOpt config "pip_extra_index_url").toList
  ++ (getStrOpt config "modal_secret").toList
  ++ gpuNames (getGpu config)

/-- A string free of the template's meta-characters: it contains no `@`
(decorator marker) and no `"` (the delimiter quoting every interpolated
value). -/
abbrev plainStr (s : String) : Prop := ∀ ch ∈ s.data, ch ≠ '@' ∧ ch ≠ '"'

/-- Well-formed generator inputs: every interpolated string is plain. -/
abbrev plainInputs (appName modelPath : String) (config : Config)
    (reqs : List String) : Prop :=
  ∀ s ∈ interpStrings appName modelPath config reqs, plainStr s

/-- No interpolated string itself contains the text `pat`. -/
abbrev avoidsAll (pat : String) (appName modelPath : String) (config : Config)
    (reqs : List String) : Prop :=
  ∀ s ∈ interpStrings appName modelPath config reqs, ¬ pat.data <:+: s.data

/-- Result of resolving a model URI against the model registry: a local
artifact path and the model's declared requirements. -/
structure RegistryResult where
  path : String
  requirements : List String

/-- Response of the remote platform to a submitted deployment. -/
structure PlatformResponse where
  name : String
  endpoint_url : String

/-- A deployment record as returned to the caller: the platform response
augmented with the effective configuration used. -/
structure DeploymentRecord where
  name : String
  endpoint_url : String
  config : Config
deriving Repr

/-- Modelled from the spec: `create_deployment` — resolve the model URI
through the registry collaborator, normalize the configuration over the
defaults, validate the GPU specification, generate the application
source, submit it to the platform collaborator, and return the
platform's response augmented with the effective configuration
(spec section 4.3). -/
def create_deployment (registry : String → RegistryResult)
    (submit : String → String → PlatformResponse)
    (name model_uri : String) (config : Config) :
    Except String DeploymentRecord :=
  match validate_gpu_config (getGpu (apply_custom_config default_deployment_config config)) with
  | .error e => .error e
  | .ok _ =>
    .ok
      { name := (submit name
          (generate_modal_app_code name (registry model_uri).path
            (apply_custom_config default_deployment_config config)
            (registry model_uri).requirements)).name,
        endpoint_url := (submit name
          (generate_modal_app_code name (registry model_uri).path
            (apply_custom_config default_deployment_config config)
            (registry model_uri).requirements)).endpoint_url,
        config := apply_custom_config default_deployment_config config }

/-- Boolean substring test, Python's `pat in s`. -/
def strContainsB (s pat : String) : Bool :=
  List.any (List.tails s.data) (fun t => List.isPrefixOf pat.data t)

/-- Fuel-driven translation of Python's `str.replace`: replace every
non-overlapping occurrence of `old`, scanning left to right and
continuing after each inserted replacement. -/
def replChars : Nat → List Char → List Char → List Char → List Char
  | 0, l, _, _ => l
  | _ + 1, [], _, _ => []
  | fuel + 1, c :: cs, old, new =>
    if List.isPrefixOf old (c :: cs)
    then new ++ replChars fuel (List.drop old.length (c :: cs)) old new
    else c :: replChars fuel cs old new

/-- Python's `s.replace(old, new)`. -/
def pyReplace (s old new : String) : String :=
  String.mk (replChars (s.data.length + 1) s.data old.data new.data)

/-- Embedded from `tests/e2e_test.py` (streaming test, fallback URL
guess): handle both URL patterns — path-based `/predict` and
subdomain-based `-predict.` — by string substitution on the
prediction-endpoint URL. -/
def guess_stream_url (endpoint_url : String) : String :=
  if strContainsB endpoint_url "/predict"
  then pyReplace endpoint_url "/predict" "/predict_stream"
  else pyReplace endpoint_url "-predict." "-predict-stream."

/-- Boolean test of whether a generated line carries the per-instance
concurrency directive, the per-line check the placement test performs. -/
def lineHasConc (l : String) : Bool :=
  decide ("@modal.concurrent".data <:+: l.data)

/-- The configuration of the concurrency-placement test: the fields the
integration test `test_generated_code_uses_new_api` passes. -/
def apiTestConfig : Config :=
  [("gpu", .vNone), ("memory", .vNat 512), ("cpu", .vStr "1.0"),
   ("timeout", .vNat 300), ("scaledown_window", .vNat 120),
   ("concurrent_inputs", .vNat 5), ("min_containers", .vNat 1),
   ("max_containers", .vNat 10), ("enable_batching", .vBool false),
   ("python_version", .vStr "3.10")]

/-- The configuration of the GPU-emission test, parameterized by the
`gpu` value, as `test_gpu_string_generation` builds it. -/
def gpuTestConfig (g : ConfigVal) : Config :=
  [("gpu", g), ("memory", .vNat 512), ("cpu", .vStr "1.0"),
   ("timeout", .vNat 300), ("scaledown_window", .vNat 60),
   ("concurrent_inputs", .vNat 1), ("enable_batching", .vBool false),
   ("python_version", .vStr "3.10")]

/-! ## Basic string and list infrastructure -/

theorem strData_append (s t : String) : (s ++ t).data = s.data ++ t.data := by
  cases s; cases t; rfl

theorem mkData (l : List Char) : (String.mk l).data = l := rfl

theorem digitChar_isDigit (n : Nat) : (digitChar n).isDigit = true := by
  unfold digitChar
  split <;> rfl

theorem natCharsAux_digit (fuel : Nat) : ∀ (n : Nat) (acc : List Char),
    (∀ ch ∈ acc, ch.isDigit = true) →
    ∀ ch ∈ natCharsAux fuel n acc, ch.isDigit = true := by
  induction fuel with
  | zero => intro n acc h; simpa [natCharsAux] using h
  | succ fuel ih =>
    intro n acc h
    simp only [natCharsAux]
    split
    · intro ch hch
      rcases List.mem_cons.mp hch with rfl | hch
      · exact digitChar_isDigit n
      · exact h ch hch
    · refine ih _ _ ?_
      intro ch hch
      rcases List.mem_cons.mp hch with rfl | hch
      · exact digitChar_isDigit n
      · exact h ch hch

theorem natStr_digit (n : Nat) : ∀ ch ∈ (natStr n).data, ch.isDigit = true :=
  natCharsAux_digit (n + 1) n [] (by intro ch hch; cases hch)

theorem infix_nil_eq {pat : List Char} (h : pat <:+: []) : pat = [] :=
  List.eq_nil_of_sublist_nil h.sublist

theorem not_infix_of_absent {pat s : List Char} {y : Char} (hy : y ∈ pat)
    (hs : y ∉ s) : ¬ pat <:+: s :=
  fun h => hs (h.sublist.subset hy)

theorem prefix_split (x : Char) : ∀ (pat a b : List Char), x ∉ pat →
    pat <+: a ++ x :: b → pat <+: a := by
  intro pat
  induction pat with
  | nil => intro a b _ _; exact List.nil_prefix
  | cons p ps ih =>
    intro a b hx hp
    cases a with
    | nil =>
      obtain ⟨rfl, -⟩ := List.cons_prefix_cons.mp hp
      exact absurd (List.mem_cons_self _ _) hx
    | cons c a' =>
      obtain ⟨rfl, hps⟩ := List.cons_prefix_cons.mp hp
      exact List.cons_prefix_cons.mpr
        ⟨rfl, ih a' b (fun hm => hx (List.mem_cons_of_mem _ hm)) hps⟩

theorem infix_split (x : Char) : ∀ (a : List Char) {pat b : List Char}, x ∉ pat →
    pat <:+: a ++ x :: b → pat <:+: a ∨ pat <:+: b := by
  intro a
  induction a with
  | nil =>
    intro pat b hx h
    rcases List.infix_cons_iff.mp h with hp | hi
    · cases pat with
      | nil => exact Or.inl List.nil_prefix.isInfix
      | cons p ps =>
        obtain ⟨rfl, -⟩ := List.cons_prefix_cons.mp hp
        exact absurd (List.mem_cons_self _ _) hx
    · exact Or.inr hi
  | cons c a' ih =>
    intro pat b hx h
    rcases List.infix_cons_iff.mp h with hp | hi
    · exact Or.inl (prefix_split x pat (c :: a') b hx hp).isInfix
    · rcases ih hx hi with h1 | h2
      · exact Or.inl (List.infix_cons h1)
      · exact Or.inr h2

theorem joinC_cons_of_ne (x : Char) (s : List Char) (ss : List (List Char))
    (h : ss ≠ []) : joinC x (s :: ss) = s ++ x :: joinC x ss := by
  cases ss with
  | nil => exact absurd rfl h
  | cons t r => rfl

theorem join_split (x : Char) {pat : List Char} (hx : x ∉ pat) :
    ∀ segs : List (List Char), pat <:+: joinC x segs →
    pat = [] ∨ ∃ s ∈ segs, pat <:+: s := by
  intro segs
  induction segs with
  | nil => intro h; exact Or.inl (infix_nil_eq h)
  | cons s rest ih =>
    cases rest with
    | nil =>
      intro h
      exact Or.inr ⟨s, List.mem_cons_self _ _, by simpa [joinC] using h⟩
    | cons s₂ r' =>
      intro h
      rw [joinC_cons_of_ne x s (s₂ :: r') (by simp)] at h
      rcases infix_split x s hx h with h1 | h2
      · exact Or.inr ⟨s, List.mem_cons_self _ _, h1⟩
      · rcases ih h2 with h3 | ⟨t, ht, hp⟩
        · exact Or.inl h3
        · exact Or.inr ⟨t, List.mem_cons_of_mem _ ht, hp⟩

theorem seg_infix_join (x : Char) : ∀ (segs : List (List Char)) (s : List Char),
    s ∈ segs → s <:+: joinC x segs := by
  intro segs
  induction segs with
  | nil => intro s hs; exact absurd hs (List.not_mem_nil s)
  | cons a rest ih =>
    intro s hs
    rcases List.mem_cons.mp hs with rfl | hs
    · cases rest with
      | nil => simp [joinC]
      | cons b r' =>
        rw [joinC_cons_of_ne x s (b :: r') (by simp)]
        exact (List.prefix_append s _).isInfix
    · cases rest with
      | nil => exact absurd hs (List.not_mem_nil s)
      | cons b r' =>
        rw [joinC_cons_of_ne x a (b :: r') (by simp)]
        exact (ih s hs).trans ⟨a ++ [x], [], by simp⟩

theorem adj_infix_join (x : Char) : ∀ (A : List (List Char)) (l1 l2 : List Char)
    (B : List (List Char)), (l1 ++ x :: l2) <:+: joinC x (A ++ l1 :: l2 :: B) := by
  intro A
  induction A with
  | nil =>
    intro l1 l2 B
    rw [List.nil_append, joinC_cons_of_ne x l1 (l2 :: B) (by simp)]
    have h2 : l2 <+: joinC x (l2 :: B) := by
      cases B with
      | nil => simp [joinC]
      | cons b r => rw [joinC_cons_of_ne x l2 (b :: r) (by simp)]; exact List.prefix_append _ _
    obtain ⟨t, ht⟩ := h2
    have hpre : l1 ++ x :: l2 <+: l1 ++ x :: joinC x (l2 :: B) := ⟨t, by simp [← ht]⟩
    exact List.IsPrefix.isInfix hpre
  | cons a A' ih =>
    intro l1 l2 B
    rw [List.cons_append, joinC_cons_of_ne x a (A' ++ l1 :: l2 :: B) (by simp)]
    exact (ih l1 l2 B).trans ⟨a ++ [x], [], by simp⟩

theorem infix_head_anchor {y : Char} {p' rest : List Char} (hy : y ∉ rest)
    (h : (y :: p') <:+: (y :: rest)) : (y :: p') <+: y :: rest := by
  rcases List.infix_cons_iff.mp h with hp | hi
  · exact hp
  · exact absurd (hi.sublist.subset (List.mem_cons_self _ _)) hy

theorem prefix_of_short {pat a b : List Char} (h : pat <+: a ++ b)
    (hl : pat.length ≤ a.length) : pat <+: a := by
  have h1 := List.prefix_iff_eq_take.mp h
  rw [List.take_append_of_le_length hl] at h1
  rw [h1]
  exact List.take_prefix _ _

theorem quoted_seg_free {pat : List Char} (hq : '"' ∉ pat) {c1 f c2 : List Char}
    (h1 : ¬ pat <:+: c1) (h2 : ¬ pat <:+: f) (h3 : ¬ pat <:+: c2) :
    ¬ pat <:+: c1 ++ '"' :: (f ++ '"' :: c2) := by
  intro h
  rcases infix_split '"' c1 hq h with h' | h'
  · exact h1 h'
  · rcases infix_split '"' f hq h' with h'' | h''
    · exact h2 h''
    · exact h3 h''

theorem quoted_line_data (pre f post : String) :
    (pre ++ q f ++ post).data = pre.data ++ '"' :: (f.data ++ '"' :: post.data) := by
  simp [q, strData_append]

theorem quoted_line_free {pat : String} (hq : '"' ∉ pat.data) (pre f post : String)
    (h1 : ¬ pat.data <:+: pre.data) (h2 : ¬ pat.data <:+: f.data)
    (h3 : ¬ pat.data <:+: post.data) :
    ¬ pat.data <:+: (pre ++ q f ++ post).data := by
  rw [quoted_line_data]
  exact quoted_seg_free hq h1 h2 h3

theorem plainStr_at {s : String} (h : plainStr s) : '@' ∉ s.data :=
  fun hm => (h _ hm).1 rfl

theorem plainStr_quote {s : String} (h : plainStr s) : '"' ∉ s.data :=
  fun hm => (h _ hm).2 rfl

theorem strContainsB_iff (s pat : String) :
    strContainsB s pat = true ↔ pat.data <:+: s.data := by
  unfold strContainsB
  rw [List.any_eq_true]
  constructor
  · rintro ⟨t, ht, hp⟩
    exact (( List.isPrefixOf_iff_prefix).mp hp).isInfix.trans
      (( List.mem_tails _ _).mp ht).isInfix
  · intro h
    rcases List.infix_iff_prefix_suffix.mp h with ⟨t, hp, hs⟩
    exact ⟨t, ( List.mem_tails _ _).mpr hs, ( List.isPrefixOf_iff_prefix).mpr hp⟩

/-! ## Configuration-mapping lemmas -/

theorem getVal_setVal_self (c : Config) (k : String) (v : ConfigVal) :
    getVal (setVal c k v) k = some v := by
  induction c with
  | nil => simp [setVal, getVal]
  | cons p rest ih =>
    obtain ⟨k', v'⟩ := p
    by_cases h : k' = k
    · simp [setVal, h, getVal]
    · simp [setVal, h, getVal, ih]

theorem getVal_setVal_ne (c : Config) (k : String) (v : ConfigVal) (k₂ : String)
    (h : k ≠ k₂) : getVal (setVal c k v) k₂ = getVal c k₂ := by
  induction c with
  | nil => simp [setVal, getVal, h]
  | cons p rest ih =>
    obtain ⟨k', v'⟩ := p
    by_cases h1 : k' = k
    · subst h1
      simp [setVal, getVal, h]
    · simp [setVal, h1, getVal, ih]

theorem getVal_removeKey_self (c : Config) (k : String) :
    getVal (removeKey c k) k = none := by
  induction c with
  | nil => simp [removeKey, getVal]
  | cons p rest ih =>
    obtain ⟨k', v'⟩ := p
    by_cases h : k' = k
    · simp [removeKey, h, ih]
    · simp [removeKey, h, getVal, ih]

theorem getVal_removeKey_ne (c : Config) (k k₂ : String) (h : k₂ ≠ k) :
    getVal (removeKey c k) k₂ = getVal c k₂ := by
  induction c with
  | nil => simp [removeKey]
  | cons p rest ih =>
    obtain ⟨k', v'⟩ := p
    by_cases h1 : k' = k
    · subst h1
      have hne : k' ≠ k₂ := fun e => h e.symm
      simp [removeKey, getVal, hne, ih]
    · simp [removeKey, h1, getVal, ih]

theorem removeKey_comm (c : Config) (k₁ k₂ : String) :
    removeKey (removeKey c k₁) k₂ = removeKey (removeKey c k₂) k₁ := by
  induction c with
  | nil => rfl
  | cons p rest ih =>
    obtain ⟨k', v'⟩ := p
    by_cases h1 : k' = k₁
    · subst h1
      by_cases h2 : k' = k₂
      · subst h2
        simp [removeKey, ih]
      · simp [removeKey, h2, ih]
    · by_cases h2 : k' = k₂
      · subst h2
        simp [removeKey, h1, ih]
      · simp [removeKey, h1, h2, ih]

theorem removeKey_setVal_comm (c : Config) (k₁ k₂ : String) (v : ConfigVal)
    (h : k₁ ≠ k₂) :
    removeKey (setVal c k₁ v) k₂ = setVal (removeKey c k₂) k₁ v := by
  induction c with
  | nil => simp [setVal, removeKey, h]
  | cons p rest ih =>
    obtain ⟨k', v'⟩ := p
    by_cases h1 : k' = k₁
    · subst h1
      simp [setVal, removeKey, h, fun e : k' = k₂ => h (e ▸ rfl)]
    · by_cases h2 : k' = k₂
      · subst h2
        simp [setVal, removeKey, h1, ih]
      · simp [setVal, removeKey, h1, h2, ih]

theorem mergeConfigs_cons (config : Config) (k : String) (v : ConfigVal)
    (rest : Config) :
    mergeConfigs config ((k, v) :: rest) = mergeConfigs (setVal config k v) rest := rfl

theorem keysOf_cons (k : String) (v : ConfigVal) (rest : Config) :
    keysOf ((k, v) :: rest) = k :: keysOf rest := rfl

theorem getVal_merge_not_mem {config custom : Config} {k : String}
    (h : k ∉ keysOf custom) :
    getVal (mergeConfigs config custom) k = getVal config k := by
  induction custom generalizing config with
  | nil => rfl
  | cons p rest ih =>
    obtain ⟨k₁, v₁⟩ := p
    rw [keysOf_cons] at h
    have hk : k₁ ≠ k := fun e => h (e ▸ List.mem_cons_self _ _)
    rw [mergeConfigs_cons, ih (fun hm => h (List.mem_cons_of_mem _ hm)),
      getVal_setVal_ne _ _ _ _ hk]

theorem getVal_merge_mem {config custom : Config} {k : String} {v : ConfigVal}
    (hnd : (keysOf custom).Nodup) (h : getVal custom k = some v) :
    getVal (mergeConfigs config custom) k = some v := by
  induction custom generalizing config with
  | nil => simp [getVal] at h
  | cons p rest ih =>
    obtain ⟨k₁, v₁⟩ := p
    rw [keysOf_cons] at hnd
    obtain ⟨hnm, hnd'⟩ := List.nodup_cons.mp hnd
    by_cases hk : k₁ = k
    · subst hk
      have hv : v₁ = v := by simpa [getVal] using h
      subst hv
      rw [mergeConfigs_cons, getVal_merge_not_mem hnm, getVal_setVal_self]
    · have h' : getVal rest k = some v := by simpa [getVal, hk] using h
      rw [mergeConfigs_cons]
      exact ih hnd' h'

theorem mem_keysOf_setVal {c : Config} {k : String} {v : ConfigVal} {k₂ : String}
    (h : k₂ ∈ keysOf (setVal c k v)) : k₂ ∈ keysOf c ∨ k₂ = k := by
  induction c with
  | nil => simpa [setVal, keysOf] using h
  | cons p rest ih =>
    obtain ⟨k', v'⟩ := p
    by_cases h1 : k' = k
    · subst h1
      rcases List.mem_cons.mp (by simpa [setVal, keysOf_cons] using h) with rfl | hm
      · exact Or.inr rfl
      · exact Or.inl (List.mem_cons_of_mem _ hm)
    · rcases List.mem_cons.mp (by simpa [setVal, h1, keysOf_cons] using h) with rfl | hm
      · exact Or.inl (List.mem_cons_self _ _)
      · rcases ih hm with hm' | hm'
        · exact Or.inl (List.mem_cons_of_mem _ hm')
        · exact Or.inr hm'

theorem nodup_setVal (c : Config) (k : String) (v : ConfigVal)
    (h : (keysOf c).Nodup) : (keysOf (setVal c k v)).Nodup := by
  induction c with
  | nil => simp [setVal, keysOf]
  | cons p rest ih =>
    obtain ⟨k', v'⟩ := p
    rw [keysOf_cons] at h
    obtain ⟨hnm, hnd⟩ := List.nodup_cons.mp h
    by_cases h1 : k' = k
    · subst h1
      simpa [setVal, keysOf_cons] using List.nodup_cons.mpr ⟨hnm, hnd⟩
    · rw [show setVal ((k', v') :: rest) k v = (k', v') :: setVal rest k v by
        simp [setVal, h1], keysOf_cons]
      refine List.nodup_cons.mpr ⟨?_, ih hnd⟩
      intro hm
      rcases mem_keysOf_setVal hm with hm' | rfl
      · exact hnm hm'
      · exact h1 rfl

theorem mem_keysOf_removeKey {c : Config} {k k₂ : String}
    (h : k₂ ∈ keysOf (removeKey c k)) : k₂ ∈ keysOf c := by
  induction c with
  | nil => simpa [removeKey] using h
  | cons p rest ih =>
    obtain ⟨k', v'⟩ := p
    by_cases h1 : k' = k
    · exact List.mem_cons_of_mem _ (ih (by simpa [removeKey, h1] using h))
    · rcases List.mem_cons.mp (by simpa [removeKey, h1, keysOf_cons] using h) with rfl | hm
      · exact List.mem_cons_self _ _
      · exact List.mem_cons_of_mem _ (ih hm)

theorem nodup_removeKey (c : Config) (k : String)
    (h : (keysOf c).Nodup) : (keysOf (removeKey c k)).Nodup := by
  induction c with
  | nil => simp [removeKey, keysOf]
  | cons p rest ih =>
    obtain ⟨k', v'⟩ := p
    rw [keysOf_cons] at h
    obtain ⟨hnm, hnd⟩ := List.nodup_cons.mp h
    by_cases h1 : k' = k
    · simpa [removeKey, h1] using ih hnd
    · rw [show removeKey ((k', v') :: rest) k = (k', v') :: removeKey rest k by
        simp [removeKey, h1], keysOf_cons]
      exact List.nodup_cons.mpr ⟨fun hm => hnm (mem_keysOf_removeKey hm), ih hnd⟩

theorem remap_of_absent {custom : Config} {old new : String}
    (h : getVal custom old = none) :
    remap_deprecated custom old new = custom := by
  simp [remap_deprecated, h]

theorem remap_of_present_cur {custom : Config} {old new : String} {w : ConfigVal}
    (h : getVal custom old = some w)
    (hsome : (getVal (removeKey custom old) new).isSome = true) :
    remap_deprecated custom old new = removeKey custom old := by
  simp [remap_deprecated, h, hsome]

theorem remap_of_present_nocur {custom : Config} {old new : String} {w : ConfigVal}
    (h : getVal custom old = some w)
    (hnone : getVal (removeKey custom old) new = none) :
    remap_deprecated custom old new = setVal (removeKey custom old) new w := by
  simp [remap_deprecated, h, hnone]

theorem getVal_remap_other {custom : Config} {old new k : String} {v : ConfigVal}
    (hko : k ≠ old) (h : getVal custom k = some v) :
    getVal (remap_deprecated custom old new) k = some v := by
  cases hg : getVal custom old with
  | none => rw [remap_of_absent hg]; exact h
  | some w =>
    cases hn : getVal (removeKey custom old) new with
    | some z =>
      rw [remap_of_present_cur hg (by rw [hn]; rfl),
        getVal_removeKey_ne _ _ _ hko]
      exact h
    | none =>
      rw [remap_of_present_nocur hg hn]
      by_cases hkn : k = new
      · subst hkn
        rw [getVal_removeKey_ne _ _ _ hko, h] at hn
        cases hn
      · rw [getVal_setVal_ne _ _ _ _ (fun e => hkn e.symm),
          getVal_removeKey_ne _ _ _ hko]
        exact h

theorem nodup_remap (custom : Config) (old new : String)
    (h : (keysOf custom).Nodup) :
    (keysOf (remap_deprecated custom old new)).Nodup := by
  cases hg : getVal custom old with
  | none => rw [remap_of_absent hg]; exact h
  | some w =>
    cases hn : getVal (removeKey custom old) new with
    | some z =>
      rw [remap_of_present_cur hg (by rw [hn]; rfl)]
      exact nodup_removeKey _ _ h
    | none =>
      rw [remap_of_present_nocur hg hn]
      exact nodup_setVal _ _ _ (nodup_removeKey _ _ h)

theorem remap_removeKey_comm (custom : Config) (old new k : String)
    (h1 : k ≠ old) (h2 : k ≠ new) :
    remap_deprecated (removeKey custom k) old new
      = removeKey (remap_deprecated custom old new) k := by
  cases hg : getVal custom old with
  | none =>
    have hg' : getVal (removeKey custom k) old = none := by
      rw [getVal_removeKey_ne _ _ _ (fun e => h1 e.symm)]; exact hg
    rw [remap_of_absent hg, remap_of_absent hg']
  | some w =>
    have hg' : getVal (removeKey custom k) old = some w := by
      rw [getVal_removeKey_ne _ _ _ (fun e => h1 e.symm)]; exact hg
    cases hn : getVal (removeKey custom old) new with
    | some z =>
      have hn' : getVal (removeKey (removeKey custom k) old) new = some z := by
        rw [removeKey_comm, getVal_removeKey_ne _ _ _ (fun e => h2 e.symm)]
        exact hn
      rw [remap_of_present_cur hg (by rw [hn]; rfl),
        remap_of_present_cur hg' (by rw [hn']; rfl)]
      exact removeKey_comm custom k old
    | none =>
      have hn' : getVal (removeKey (removeKey custom k) old) new = none := by
        rw [removeKey_comm, getVal_removeKey_ne _ _ _ (fun e => h2 e.symm)]
        exact hn
      rw [remap_of_present_nocur hg hn, remap_of_present_nocur hg' hn',
        removeKey_setVal_comm _ _ _ _ (fun e => h2 e.symm), removeKey_comm]

/-- C3: normalization maps deprecated option names to current ones —
applying user overrides over the default configuration with
`_apply_custom_config`, `container_idle_timeout = 90` with no
`scaledown_window` yields `scaledown_window == 90`, and
`allow_concurrent_inputs = 3` with no `concurrent_inputs` yields
`concurrent_inputs == 3`, separately and combined as the test passes
them. -/
theorem claim_C3 :
    getVal (apply_custom_config default_deployment_config
      [("container_idle_timeout", .vNat 90)]) "scaledown_window"
      = some (.vNat 90)
    ∧ getVal (apply_custom_config default_deployment_config
      [("allow_concurrent_inputs", .vNat 3)]) "concurrent_inputs"
      = some (.vNat 3)
    ∧ getVal (apply_custom_config default_deployment_config
      [("container_idle_timeout", .vNat 90), ("allow_concurrent_inputs", .vNat 3)])
      "scaledown_window" = some (.vNat 90)
    ∧ getVal (apply_custom_config default_deployment_config
      [("container_idle_timeout", .vNat 90), ("allow_concurrent_inputs", .vNat 3)])
      "concurrent_inputs" = some (.vNat 3) := by
  refine ⟨?_, ?_, ?_, ?_⟩ <;> decide

/-- C4: whenever the user overrides contain both a deprecated key and its
corresponding current key, the effective configuration produced by
`_apply_custom_config` takes the current key's value, and the deprecated
key has no effect at all: the result is the same as if the deprecated key
had not been supplied. -/
theorem claim_C4 (config custom : Config) (v : ConfigVal)
    (hnd : (keysOf custom).Nodup) :
    (getVal custom "scaledown_window" = some v →
      (getVal custom "container_idle_timeout").isSome = true →
      getVal (apply_custom_config config custom) "scaledown_window" = some v
      ∧ apply_custom_config config custom
        = apply_custom_config config (removeKey custom "container_idle_timeout"))
    ∧ (getVal custom "concurrent_inputs" = some v →
      (getVal custom "allow_concurrent_inputs").isSome = true →
      getVal (apply_custom_config config custom) "concurrent_inputs" = some v
      ∧ apply_custom_config config custom
        = apply_custom_config config (removeKey custom "allow_concurrent_inputs")) := by
  constructor
  · intro hv hcit
    obtain ⟨w, hw⟩ := Option.isSome_iff_exists.mp hcit
    have hvr : getVal (removeKey custom "container_idle_timeout")
        "scaledown_window" = some v := by
      rw [getVal_removeKey_ne _ _ _ (by decide)]
      exact hv
    have h1 : remap_deprecated custom "container_idle_timeout" "scaledown_window"
        = removeKey custom "container_idle_timeout" :=
      remap_of_present_cur hw (by rw [hvr]; rfl)
    have h1' : remap_deprecated (removeKey custom "container_idle_timeout")
        "container_idle_timeout" "scaledown_window"
        = removeKey custom "container_idle_timeout" :=
      remap_of_absent (getVal_removeKey_self _ _)
    have heq : apply_custom_config config custom
        = apply_custom_config config (removeKey custom "container_idle_timeout") := by
      unfold apply_custom_config
      rw [h1, h1']
    refine ⟨?_, heq⟩
    unfold apply_custom_config
    rw [h1]
    have h2 := @getVal_remap_other _ "allow_concurrent_inputs"
      "concurrent_inputs" _ _ (by decide) hvr
    exact getVal_merge_mem (nodup_remap _ _ _ (nodup_removeKey _ _ hnd)) h2
  · intro hv haci
    obtain ⟨w, hw⟩ := Option.isSome_iff_exists.mp haci
    have hv1 : getVal (remap_deprecated custom "container_idle_timeout"
        "scaledown_window") "concurrent_inputs" = some v :=
      getVal_remap_other (by decide) hv
    have hw1 : getVal (remap_deprecated custom "container_idle_timeout"
        "scaledown_window") "allow_concurrent_inputs" = some w :=
      getVal_remap_other (by decide) hw
    have hgr : getVal (removeKey (remap_deprecated custom "container_idle_timeout"
        "scaledown_window") "allow_concurrent_inputs") "concurrent_inputs"
        = some v := by
      rw [getVal_removeKey_ne _ _ _ (by decide)]
      exact hv1
    have h2 : remap_deprecated (remap_deprecated custom "container_idle_timeout"
        "scaledown_window") "allow_concurrent_inputs" "concurrent_inputs"
        = removeKey (remap_deprecated custom "container_idle_timeout"
            "scaledown_window") "allow_concurrent_inputs" :=
      remap_of_present_cur hw1 (by rw [hgr]; rfl)
    have hcomm : remap_deprecated (removeKey custom "allow_concurrent_inputs")
        "container_idle_timeout" "scaledown_window"
        = removeKey (remap_deprecated custom "container_idle_timeout"
            "scaledown_window") "allow_concurrent_inputs" :=
      remap_removeKey_comm custom _ _ _ (by decide) (by decide)
    have hR : remap_deprecated (remap_deprecated
        (removeKey custom "allow_concurrent_inputs") "container_idle_timeout"
        "scaledown_window") "allow_concurrent_inputs" "concurrent_inputs"
        = remap_deprecated (removeKey custom "allow_concurrent_inputs")
            "container_idle_timeout" "scaledown_window" := by
      apply remap_of_absent
      rw [hcomm, getVal_removeKey_self]
    have heq : apply_custom_config config custom
        = apply_custom_config config (removeKey custom "allow_concurrent_inputs") := by
      unfold apply_custom_config
      rw [h2, hR, hcomm]
    refine ⟨?_, heq⟩
    unfold apply_custom_config
    rw [h2]
    exact getVal_merge_mem (nodup_removeKey _ _ (nodup_remap _ _ _ hnd)) hgr

/-- C4 witness: a concrete override mapping carrying both
`container_idle_timeout` and `scaledown_window`; the current key's value
42 wins. -/
theorem claim_C4_witness :
    (keysOf [("container_idle_timeout", ConfigVal.vNat 99),
      ("scaledown_window", ConfigVal.vNat 42)]).Nodup
    ∧ getVal (apply_custom_config default_deployment_config
        [("container_idle_timeout", ConfigVal.vNat 99),
         ("scaledown_window", ConfigVal.vNat 42)]) "scaledown_window"
      = some (.vNat 42) :=
  ⟨by decide,
    ((claim_C4 default_deployment_config
      [("container_idle_timeout", ConfigVal.vNat 99),
       ("scaledown_window", ConfigVal.vNat 42)]
      (ConfigVal.vNat 42) (by decide)).1 (by decide) (by decide)).1⟩

theorem validate_gpu_list_ok_iff (l : List String) :
    validate_gpu_list l = .ok ()
      ↔ ∀ d ∈ l, ALLOWED_GPUS.contains (gpuBaseName d) = true := by
  induction l with
  | nil => simp [validate_gpu_list]
  | cons d rest ih =>
    by_cases hc : gpuBaseName d ∈ ALLOWED_GPUS
    · simp [validate_gpu_list, validate_gpu_desc, hc, ih, List.forall_mem_cons]
    · simp [validate_gpu_list, validate_gpu_desc, hc, List.forall_mem_cons]

/-- C5: `_validate_gpu_config` raises an error if and only if some
accelerator descriptor's name is outside the fixed allow-list; it accepts
`"H100"`, `"H100:8"`, `"A100-80GB"`, `"H100!"`, `["H100", "A100"]` and
`["H100:4", "A100-80GB:2"]`, validates each element of a fallback list
independently, and rejects `"INVALID_GPU"` with a descriptive error. -/
theorem claim_C5 :
    (validate_gpu_config (.single "H100") = .ok ()
    ∧ validate_gpu_config (.single "H100:8") = .ok ()
    ∧ validate_gpu_config (.single "A100-80GB") = .ok ()
    ∧ validate_gpu_config (.single "H100!") = .ok ()
    ∧ validate_gpu_config (.fallback ["H100", "A100"]) = .ok ()
    ∧ validate_gpu_config (.fallback ["H100:4", "A100-80GB:2"]) = .ok ()
    ∧ validate_gpu_config (.single "INVALID_GPU")
        = .error "Unsupported GPU type: INVALID_GPU")
    ∧ ∀ g : GpuSpec, validate_gpu_config g = .ok ()
        ↔ ∀ d ∈ gpuNames g, ALLOWED_GPUS.contains (gpuBaseName d) = true := by
  refine ⟨⟨rfl, rfl, rfl, rfl, rfl, rfl, rfl⟩, ?_⟩
  intro g
  cases g with
  | absent => simp [validate_gpu_config, gpuNames]
  | single s =>
    by_cases hc : gpuBaseName s ∈ ALLOWED_GPUS <;>
      simp [validate_gpu_config, validate_gpu_desc, gpuNames, hc]
  | fallback l => simpa [validate_gpu_config, gpuNames] using validate_gpu_list_ok_iff l

/-- C5 witness: the general acceptance criterion applied at the concrete
fallback list of the test, every descriptor name being allowed. -/
theorem claim_C5_witness :
    validate_gpu_config (.fallback ["H100:4", "A100-80GB:2"]) = .ok () :=
  (claim_C5.2 (.fallback ["H100:4", "A100-80GB:2"])).mpr (by decide)

/-! ## Generator-side infrastructure -/

theorem q_data (s : String) : (q s).data = '"' :: (s.data ++ ['"']) := by
  simp [q, strData_append]

theorem generate_data (a m : String) (c : Config) (r : List String) :
    (generate_modal_app_code a m c r).data
      = joinC '\n' (List.map String.data (generateLines a m c r)) := rfl

theorem contains_of_line {a m : String} {c : Config} {r : List String}
    {pat l : String} (hl : l ∈ generateLines a m c r)
    (hp : pat.data <:+: l.data) :
    containsStr (generate_modal_app_code a m c r) pat := by
  unfold containsStr
  rw [generate_data]
  exact hp.trans (seg_infix_join '\n' _ l.data (List.mem_map_of_mem _ hl))

theorem not_contains_of_lines {a m : String} {c : Config} {r : List String}
    {pat : String} (hne : pat.data ≠ []) (hnl : '\n' ∉ pat.data)
    (h : ∀ l ∈ generateLines a m c r, ¬ pat.data <:+: l.data) :
    ¬ containsStr (generate_modal_app_code a m c r) pat := by
  intro hc
  rw [containsStr, generate_data] at hc
  rcases join_split '\n' hnl _ hc with h0 | ⟨s, hs, hps⟩
  · exact hne h0
  · rcases List.mem_map.mp hs with ⟨l, hl, rfl⟩
    exact h l hl hps

theorem natStr_not_mem (y : Char) (n : Nat) (hy : y.isDigit = false) :
    y ∉ (natStr n).data := by
  intro hm
  have hd := natStr_digit n y hm
  rw [hd] at hy
  exact Bool.noConfusion hy

theorem atFree_append {s t : String} (hs : '@' ∉ s.data) (ht : '@' ∉ t.data) :
    '@' ∉ (s ++ t).data := by
  rw [strData_append]
  intro hm
  rcases List.mem_append.mp hm with h | h
  · exact hs h
  · exact ht h

theorem atFree_q {f : String} (hf : '@' ∉ f.data) : '@' ∉ (q f).data := by
  rw [q_data]
  intro hm
  rcases List.mem_cons.mp hm with h | h
  · exact absurd h (by decide)
  · rcases List.mem_append.mp h with h | h
    · exact hf h
    · rcases List.mem_cons.mp h with h | h
      · exact absurd h (by decide)
      · exact absurd h (List.not_mem_nil _)

theorem atFree_natStr (n : Nat) : '@' ∉ (natStr n).data :=
  natStr_not_mem '@' n (by decide)

theorem atFree_gpuInner (l : List String) (hl : ∀ s ∈ l, '@' ∉ s.data) :
    '@' ∉ (gpuListInner l).data := by
  induction l with
  | nil => simp [gpuListInner]
  | cons s rest ih =>
    cases rest with
    | nil =>
      simpa [gpuListInner] using atFree_q (hl s (List.mem_cons_self _ _))
    | cons s₂ r' =>
      rw [show gpuListInner (s :: s₂ :: r') = q s ++ ", " ++ gpuListInner (s₂ :: r') from rfl]
      exact atFree_append
        (atFree_append (atFree_q (hl s (List.mem_cons_self _ _))) (by decide))
        (ih (fun t ht => hl t (List.mem_cons_of_mem _ ht)))

theorem atFree_gpuCode (g : GpuSpec) (hg : ∀ s ∈ gpuNames g, '@' ∉ s.data) :
    '@' ∉ (gpuCodeStr g).data := by
  cases g with
  | absent => decide
  | single s => exact atFree_q (hg s (by simp [gpuNames]))
  | fallback l =>
    rw [show gpuCodeStr (.fallback l) = "[" ++ gpuListInner l ++ "]" from rfl]
    exact atFree_append
      (atFree_append (by decide) (atFree_gpuInner l (by simpa [gpuNames] using hg)))
      (by decide)

theorem atpat_not_in_line {pat t : List Char} (hpat : pat = '@' :: t)
    {l : String} (hat : '@' ∉ l.data) : ¬ pat <:+: l.data := by
  subst hpat
  exact not_infix_of_absent (List.mem_cons_self _ _) hat

theorem plain_parts {a m : String} {c : Config} {r : List String}
    (h : plainInputs a m c r) :
    plainStr a ∧ plainStr m ∧ plainStr (getStr c "python_version" "3.10")
    ∧ plainStr (getStr c "cpu" "1.0")
    ∧ (∀ p ∈ r ++ getStrList c "extra_pip_packages", plainStr p)
    ∧ (∀ u ∈ (getStrOpt c "pip_index_url").toList, plainStr u)
    ∧ (∀ u ∈ (getStrOpt c "pip_extra_index_url").toList, plainStr u)
    ∧ (∀ u ∈ (getStrOpt c "modal_secret").toList, plainStr u)
    ∧ (∀ s ∈ gpuNames (getGpu c), plainStr s) := by
  refine ⟨h _ (by simp [interpStrings]), h _ (by simp [interpStrings]),
    h _ (by simp [interpStrings]), h _ (by simp [interpStrings]),
    ?_, ?_, ?_, ?_, ?_⟩ <;>
  · intro p hp
    refine h _ ?_
    simp only [interpStrings, List.mem_append] at hp ⊢
    tauto

theorem avoids_parts {pat a m : String} {c : Config} {r : List String}
    (h : avoidsAll pat a m c r) :
    ¬ pat.data <:+: a.data ∧ ¬ pat.data <:+: m.data
    ∧ ¬ pat.data <:+: (getStr c "python_version" "3.10").data
    ∧ ¬ pat.data <:+: (getStr c "cpu" "1.0").data
    ∧ (∀ p ∈ r ++ getStrList c "extra_pip_packages", ¬ pat.data <:+: p.data)
    ∧ (∀ u ∈ (getStrOpt c "pip_index_url").toList, ¬ pat.data <:+: u.data)
    ∧ (∀ u ∈ (getStrOpt c "pip_extra_index_url").toList, ¬ pat.data <:+: u.data)
    ∧ (∀ u ∈ (getStrOpt c "modal_secret").toList, ¬ pat.data <:+: u.data)
    ∧ (∀ s ∈ gpuNames (getGpu c), ¬ pat.data <:+: s.data) := by
  refine ⟨h _ (by simp [interpStrings]), h _ (by simp [interpStrings]),
    h _ (by simp [interpStrings]), h _ (by simp [interpStrings]),
    ?_, ?_, ?_, ?_, ?_⟩ <;>
  · intro p hp
    refine h _ ?_
    simp only [interpStrings, List.mem_append] at hp ⊢
    tauto

theorem lines_cases {a m : String} {c : Config} {r : List String} {l : String}
    (hl : l ∈ generateLines a m c r) :
    l ∈ headerLines a m (getStr c "python_version" "3.10")
    ∨ l ∈ pkgLines (r ++ getStrList c "extra_pip_packages")
    ∨ l ∈ optLines "        index_url=" (getStrOpt c "pip_index_url") ","
    ∨ l ∈ optLines "        extra_index_url=" (getStrOpt c "pip_extra_index_url") ","
    ∨ l ∈ optLines "        secrets=[modal.Secret.from_name("
        (getStrOpt c "modal_secret") ")],"
    ∨ l ∈ closeImageLines
    ∨ l ∈ clsLines (getGpu c) (getNat c "memory" 512) (getStr c "cpu" "1.0")
        (getNat c "timeout" 300) (getNat c "scaledown_window" 300)
        (getNat c "min_containers" 0) (getNat c "max_containers" 10)
    ∨ l ∈ concLines (getNat c "concurrent_inputs" 1)
    ∨ l ∈ classHeadLines
    ∨ l ∈ batchLines (getBool c "enable_batching" false)
        (getNat c "max_batch_size" 8) (getNat c "batch_wait_ms" 100)
    ∨ l ∈ endpointLines := by
  simpa only [generateLines, List.mem_append, or_assoc] using hl

theorem optLines_mem {pre post l : String} {o : Option String}
    (hl : l ∈ optLines pre o post) :
    ∃ u, o = some u ∧ l = pre ++ q u ++ post := by
  cases o with
  | none => simp [optLines] at hl
  | some u =>
    refine ⟨u, rfl, ?_⟩
    simpa [optLines] using hl

theorem atFree_header_lines {a m pv : String} (ha : '@' ∉ a.data)
    (hm : '@' ∉ m.data) (hpv : '@' ∉ pv.data) :
    ∀ l ∈ headerLines a m pv, '@' ∉ l.data := by
  intro l hl
  simp only [headerLines, List.mem_cons, List.not_mem_nil, or_false] at hl
  rcases hl with rfl | rfl | rfl | rfl | rfl | rfl | rfl | rfl | rfl | rfl
  · decide
  · decide
  · exact atFree_append (atFree_append (by decide) (atFree_q ha)) (by decide)
  · decide
  · exact atFree_append (by decide) (atFree_q hm)
  · decide
  · decide
  · exact atFree_append (atFree_append (by decide) (atFree_q hpv)) (by decide)
  · decide
  · decide

theorem atFree_pkg_lines {pkgs : List String} (h : ∀ p ∈ pkgs, '@' ∉ p.data) :
    ∀ l ∈ pkgLines pkgs, '@' ∉ l.data := by
  intro l hl
  rcases List.mem_map.mp hl with ⟨p, hp, rfl⟩
  exact atFree_append (atFree_append (by decide) (atFree_q (h p hp))) (by decide)

theorem atFree_opt_lines {pre post : String} {o : Option String}
    (hpre : '@' ∉ pre.data) (hpost : '@' ∉ post.data)
    (h : ∀ u ∈ o.toList, '@' ∉ u.data) :
    ∀ l ∈ optLines pre o post, '@' ∉ l.data := by
  intro l hl
  obtain ⟨u, rfl, rfl⟩ := optLines_mem hl
  exact atFree_append (atFree_append hpre (atFree_q (h u (by simp)))) hpost

theorem atpat_cls_lines {pat t : List Char} (hpat : pat = '@' :: t)
    (hcls : ¬ pat <:+: "@app.cls(".data)
    {g : GpuSpec} {mem : Nat} {cpu : String} {tmo sw mn mx : Nat}
    (hg : ∀ s ∈ gpuNames g, '@' ∉ s.data) (hcpu : '@' ∉ cpu.data) :
    ∀ l ∈ clsLines g mem cpu tmo sw mn mx, ¬ pat <:+: l.data := by
  intro l hl
  simp only [clsLines, List.mem_cons, List.not_mem_nil, or_false] at hl
  rcases hl with rfl | rfl | rfl | rfl | rfl | rfl | rfl | rfl | rfl | rfl
  · exact hcls
  · exact atpat_not_in_line hpat (by decide)
  · exact atpat_not_in_line hpat
      (atFree_append (atFree_append (by decide) (atFree_gpuCode g hg)) (by decide))
  · exact atpat_not_in_line hpat
      (atFree_append (atFree_append (by decide) (atFree_natStr mem)) (by decide))
  · exact atpat_not_in_line hpat
      (atFree_append (atFree_append (by decide) hcpu) (by decide))
  · exact atpat_not_in_line hpat
      (atFree_append (atFree_append (by decide) (atFree_natStr tmo)) (by decide))
  · exact atpat_not_in_line hpat
      (atFree_append (atFree_append (by decide) (atFree_natStr sw)) (by decide))
  · exact atpat_not_in_line hpat
      (atFree_append (atFree_append (by decide) (atFree_natStr mn)) (by decide))
  · exact atpat_not_in_line hpat
      (atFree_append (atFree_append (by decide) (atFree_natStr mx)) (by decide))
  · exact atpat_not_in_line hpat (by decide)

theorem atpat_batch_lines {pat t : List Char} (hpat : pat = '@' :: t)
    (hbat : ¬ pat <:+: "    @modal.batched(".data)
    {b : Bool} {mbs bwm : Nat} :
    ∀ l ∈ batchLines b mbs bwm, ¬ pat <:+: l.data := by
  intro l hl
  cases b with
  | false => simp [batchLines] at hl
  | true =>
    simp only [batchLines, if_true, List.mem_cons, List.not_mem_nil, or_false] at hl
    rcases hl with rfl | rfl | rfl | rfl
    · exact hbat
    · exact atpat_not_in_line hpat
        (atFree_append (atFree_append (by decide) (atFree_natStr mbs)) (by decide))
    · exact atpat_not_in_line hpat
        (atFree_append (atFree_append (by decide) (atFree_natStr bwm)) (by decide))
    · exact atpat_not_in_line hpat (by decide)

theorem eq_mid_line_data (pre mid post : String) :
    ((pre ++ "=") ++ mid ++ post).data = pre.data ++ '=' :: (mid.data ++ post.data) := by
  simp [strData_append]

theorem cit_eq_split {a b : List Char}
    (ha : ¬ "container_idle_timeout".data <:+: a)
    (hb : ¬ "container_idle_timeout".data <:+: b) :
    ¬ "container_idle_timeout".data <:+: a ++ '=' :: b := by
  intro h
  rcases infix_split '=' a (by decide) h with h | h
  · exact ha h
  · exact hb h

theorem cit_digit_tail (n : Nat) (post : List Char) (hpost : 'c' ∉ post) :
    ¬ "container_idle_timeout".data <:+: ((natStr n).data ++ post) := by
  apply not_infix_of_absent (y := 'c') (by decide)
  intro hm
  rcases List.mem_append.mp hm with h | h
  · exact absurd (natStr_digit n 'c' h) (by decide)
  · exact hpost h

theorem cit_cls_case_digit (pre : String) (n : Nat)
    (hpre : ¬ "container_idle_timeout".data <:+: pre.data) :
    ¬ "container_idle_timeout".data <:+:
      (pre.data ++ '=' :: ((natStr n).data ++ ",".data)) :=
  cit_eq_split hpre (cit_digit_tail n ",".data (by decide))

theorem cit_comma_tail (sfield : String)
    (hf : ¬ "container_idle_timeout".data <:+: sfield.data) :
    ¬ "container_idle_timeout".data <:+: sfield.data ++ [','] := by
  intro h
  rcases infix_split ',' sfield.data (by decide) h with h | h
  · exact hf h
  · exact (by decide : "container_idle_timeout".data ≠ []) (infix_nil_eq h)

theorem cit_quoted (pre f post : String)
    (h1 : ¬ "container_idle_timeout".data <:+: pre.data)
    (h2 : ¬ "container_idle_timeout".data <:+: f.data)
    (h3 : ¬ "container_idle_timeout".data <:+: post.data) :
    ¬ "container_idle_timeout".data <:+: (pre ++ q f ++ post).data :=
  quoted_line_free (by decide) pre f post h1 h2 h3

theorem data_append_empty (s : String) : (s ++ "").data = s.data := by
  rw [strData_append]
  simp

theorem cit_quoted2 (pre f : String)
    (h1 : ¬ "container_idle_timeout".data <:+: pre.data)
    (h2 : ¬ "container_idle_timeout".data <:+: f.data) :
    ¬ "container_idle_timeout".data <:+: (pre ++ q f).data := by
  intro h
  refine cit_quoted pre f "" h1 h2 (by decide) ?_
  rw [data_append_empty]
  exact h

theorem conc_line_free_web (ci : Nat) :
    ¬ "@modal.web_endpoint".data <:+:
      ("@modal.concurrent(max_inputs=" ++ natStr ci ++ ")").data := by
  intro h
  have hdata : ("@modal.concurrent(max_inputs=" ++ natStr ci ++ ")").data
      = '@' :: ("modal.concurrent(max_inputs=".data ++ ((natStr ci).data ++ [')'])) := by
    rw [strData_append, strData_append,
      show "@modal.concurrent(max_inputs=".data
        = '@' :: "modal.concurrent(max_inputs=".data from rfl]
    simp [List.append_assoc]
  rw [hdata] at h
  have hrest : '@' ∉ ("modal.concurrent(max_inputs=".data ++ ((natStr ci).data ++ [')'])) := by
    intro hm
    rcases List.mem_append.mp hm with h1 | h1
    · exact absurd h1 (by decide)
    · rcases List.mem_append.mp h1 with h2 | h2
      · exact absurd (natStr_digit ci '@' h2) (by decide)
      · exact absurd h2 (by decide)
  have hpre := infix_head_anchor hrest h
  have hsplit : ('@' :: ("modal.concurrent(max_inputs=".data ++ ((natStr ci).data ++ [')'])))
      = "@modal.concurrent(max_inputs=".data ++ ((natStr ci).data ++ [')']) := by
    rw [show "@modal.concurrent(max_inputs=".data
        = '@' :: "modal.concurrent(max_inputs=".data from rfl]
    simp
  rw [hsplit] at hpre
  have hshort := prefix_of_short hpre (by decide)
  exact absurd hshort (by decide)

theorem conc_line_free_cit (ci : Nat) :
    ¬ "container_idle_timeout".data <:+:
      ("@modal.concurrent(max_inputs=" ++ natStr ci ++ ")").data := by
  intro h
  have hdata : ("@modal.concurrent(max_inputs=" ++ natStr ci ++ ")").data
      = "@modal.concurrent(max_inputs".data ++ '=' :: ((natStr ci).data ++ ")".data) := by
    rw [show "@modal.concurrent(max_inputs=" = "@modal.concurrent(max_inputs" ++ "=" from rfl,
      eq_mid_line_data]
  rw [hdata] at h
  rcases infix_split '=' _ (by decide) h with h | h
  · exact absurd h (by decide)
  · exact absurd h (cit_digit_tail ci ")".data (by decide))

theorem cit_gpu_inner : ∀ (l : List String),
    (∀ s ∈ l, ¬ "container_idle_timeout".data <:+: s.data) →
    ∀ (a c₂ : List Char), ¬ "container_idle_timeout".data <:+: a →
    ¬ "container_idle_timeout".data <:+: c₂ → l ≠ [] →
    ¬ "container_idle_timeout".data <:+: a ++ ((gpuListInner l).data ++ c₂) := by
  intro l
  induction l with
  | nil => intro _ a c₂ _ _ hne; exact absurd rfl hne
  | cons s rest ih =>
    intro hmem a c₂ ha hc _ h
    cases rest with
    | nil =>
      rw [show (gpuListInner [s]).data = '"' :: (s.data ++ ['"']) from q_data s,
        show ('"' :: (s.data ++ ['"'])) ++ c₂ = '"' :: (s.data ++ '"' :: c₂) from by simp] at h
      rcases infix_split '"' a (by decide) h with h | h
      · exact ha h
      · rcases infix_split '"' s.data (by decide) h with h | h
        · exact hmem s (List.mem_cons_self _ _) h
        · exact hc h
    | cons s₂ r' =>
      have hdata : (gpuListInner (s :: s₂ :: r')).data ++ c₂
          = '"' :: (s.data ++ '"' :: (',' :: ' ' ::
              ((gpuListInner (s₂ :: r')).data ++ c₂))) := by
        rw [show gpuListInner (s :: s₂ :: r')
            = q s ++ ", " ++ gpuListInner (s₂ :: r') from rfl,
          strData_append, strData_append, q_data,
          show (", " : String).data = [',', ' '] from rfl]
        simp [List.append_assoc]
      rw [hdata] at h
      rcases infix_split '"' a (by decide) h with h | h
      · exact ha h
      · rcases infix_split '"' s.data (by decide) h with h | h
        · exact hmem s (List.mem_cons_self _ _) h
        · rcases infix_split ',' [] (by decide) h with h | h
          · exact (by decide : "container_idle_timeout".data ≠ []) (infix_nil_eq h)
          · rcases infix_split ' ' [] (by decide) h with h | h
            · exact (by decide : "container_idle_timeout".data ≠ []) (infix_nil_eq h)
            · exact ih (fun t ht => hmem t (List.mem_cons_of_mem _ ht)) [] c₂
                (fun hx => (by decide : "container_idle_timeout".data ≠ [])
                  (infix_nil_eq hx)) hc (by simp) h

theorem cit_gpu_line {g : GpuSpec}
    (hg : ∀ s ∈ gpuNames g, ¬ "container_idle_timeout".data <:+: s.data) :
    ¬ "container_idle_timeout".data <:+: ("    gpu=" ++ gpuCodeStr g ++ ",").data := by
  cases g with
  | absent => decide
  | single s =>
    exact cit_quoted "    gpu=" s ","
      (by decide) (hg s (by simp [gpuNames])) (by decide)
  | fallback l =>
    cases l with
    | nil => decide
    | cons s rest =>
      intro h
      have hdata : ("    gpu=" ++ gpuCodeStr (.fallback (s :: rest)) ++ ",").data
          = "    gpu=[".data ++ ((gpuListInner (s :: rest)).data ++ "],".data) := by
        rw [show gpuCodeStr (.fallback (s :: rest))
            = "[" ++ gpuListInner (s :: rest) ++ "]" from rfl]
        simp [strData_append, List.append_assoc]
      rw [hdata] at h
      exact cit_gpu_inner (s :: rest) (by simpa [gpuNames] using hg)
        "    gpu=[".data "],".data (by decide) (by decide) (by simp) h

theorem cit_header_lines {a m pv : String}
    (ha : ¬ "container_idle_timeout".data <:+: a.data)
    (hm : ¬ "container_idle_timeout".data <:+: m.data)
    (hpv : ¬ "container_idle_timeout".data <:+: pv.data) :
    ∀ l ∈ headerLines a m pv, ¬ "container_idle_timeout".data <:+: l.data := by
  intro l hl
  simp only [headerLines, List.mem_cons, List.not_mem_nil, or_false] at hl
  rcases hl with rfl | rfl | rfl | rfl | rfl | rfl | rfl | rfl | rfl | rfl
  · decide
  · decide
  · exact cit_quoted "app = modal.App(" a ")" (by decide) ha (by decide)
  · decide
  · exact cit_quoted2 "MODEL_DIR = " m (by decide) hm
  · decide
  · decide
  · exact cit_quoted "    modal.Image.debian_slim(python_version=" pv ")"
      (by decide) hpv (by decide)
  · decide
  · decide

theorem cit_pkg_lines {pkgs : List String}
    (h : ∀ p ∈ pkgs, ¬ "container_idle_timeout".data <:+: p.data) :
    ∀ l ∈ pkgLines pkgs, ¬ "container_idle_timeout".data <:+: l.data := by
  intro l hl
  rcases List.mem_map.mp hl with ⟨p, hp, rfl⟩
  exact cit_quoted "        " p "," (by decide) (h p hp) (by decide)

theorem cit_opt_lines {pre post : String} {o : Option String}
    (hpre : ¬ "container_idle_timeout".data <:+: pre.data)
    (hpost : ¬ "container_idle_timeout".data <:+: post.data)
    (h : ∀ u ∈ o.toList, ¬ "container_idle_timeout".data <:+: u.data) :
    ∀ l ∈ optLines pre o post, ¬ "container_idle_timeout".data <:+: l.data := by
  intro l hl
  obtain ⟨u, rfl, rfl⟩ := optLines_mem hl
  exact cit_quoted pre u post hpre (h u (by simp)) hpost

theorem cit_cls_lines {g : GpuSpec} {mem : Nat} {cpu : String} {tmo sw mn mx : Nat}
    (hg : ∀ s ∈ gpuNames g, ¬ "container_idle_timeout".data <:+: s.data)
    (hcpu : ¬ "container_idle_timeout".data <:+: cpu.data) :
    ∀ l ∈ clsLines g mem cpu tmo sw mn mx,
      ¬ "container_idle_timeout".data <:+: l.data := by
  intro l hl
  simp only [clsLines, List.mem_cons, List.not_mem_nil, or_false] at hl
  rcases hl with rfl | rfl | rfl | rfl | rfl | rfl | rfl | rfl | rfl | rfl
  · decide
  · decide
  · exact cit_gpu_line hg
  · rw [show "    memory=" = "    memory" ++ "=" from rfl, eq_mid_line_data]
    exact cit_cls_case_digit "    memory" mem (by decide)
  · rw [show "    cpu=" = "    cpu" ++ "=" from rfl, eq_mid_line_data]
    exact cit_eq_split (by decide) (by
      rw [show ("," : String).data = [','] from rfl]
      exact cit_comma_tail cpu hcpu)
  · rw [show "    timeout=" = "    timeout" ++ "=" from rfl, eq_mid_line_data]
    exact cit_cls_case_digit "    timeout" tmo (by decide)
  · rw [show "    scaledown_window=" = "    scaledown_window" ++ "=" from rfl,
      eq_mid_line_data]
    exact cit_cls_case_digit "    scaledown_window" sw (by decide)
  · rw [show "    min_containers=" = "    min_containers" ++ "=" from rfl,
      eq_mid_line_data]
    exact cit_cls_case_digit "    min_containers" mn (by decide)
  · rw [show "    max_containers=" = "    max_containers" ++ "=" from rfl,
      eq_mid_line_data]
    exact cit_cls_case_digit "    max_containers" mx (by decide)
  · decide

theorem cit_batch_lines {b : Bool} {mbs bwm : Nat} :
    ∀ l ∈ batchLines b mbs bwm, ¬ "container_idle_timeout".data <:+: l.data := by
  intro l hl
  cases b with
  | false => simp [batchLines] at hl
  | true =>
    simp only [batchLines, if_true, List.mem_cons, List.not_mem_nil, or_false] at hl
    rcases hl with rfl | rfl | rfl | rfl
    · decide
    · rw [show "        max_batch_size=" = "        max_batch_size" ++ "=" from rfl,
        eq_mid_line_data]
      exact cit_cls_case_digit "        max_batch_size" mbs (by decide)
    · rw [show "        wait_ms=" = "        wait_ms" ++ "=" from rfl,
        eq_mid_line_data]
      exact cit_cls_case_digit "        wait_ms" bwm (by decide)
    · decide

theorem close_free_web :
    ∀ l ∈ closeImageLines, ¬ "@modal.web_endpoint".data <:+: l.data := by decide

theorem classHead_free_web :
    ∀ l ∈ classHeadLines, ¬ "@modal.web_endpoint".data <:+: l.data := by decide

theorem endpoint_free_web :
    ∀ l ∈ endpointLines, ¬ "@modal.web_endpoint".data <:+: l.data := by decide

theorem close_free_conc :
    ∀ l ∈ closeImageLines, ¬ "@modal.concurrent".data <:+: l.data := by decide

theorem classHead_free_conc :
    ∀ l ∈ classHeadLines, ¬ "@modal.concurrent".data <:+: l.data := by decide

theorem endpoint_free_conc :
    ∀ l ∈ endpointLines, ¬ "@modal.concurrent".data <:+: l.data := by decide

theorem close_free_cit :
    ∀ l ∈ closeImageLines, ¬ "container_idle_timeout".data <:+: l.data := by decide

theorem classHead_free_cit :
    ∀ l ∈ classHeadLines, ¬ "container_idle_timeout".data <:+: l.data := by decide

theorem endpoint_free_cit :
    ∀ l ∈ endpointLines, ¬ "container_idle_timeout".data <:+: l.data := by decide

theorem no_web_in_lines {a m : String} {c : Config} {r : List String}
    (h : plainInputs a m c r) :
    ∀ l ∈ generateLines a m c r, ¬ "@modal.web_endpoint".data <:+: l.data := by
  obtain ⟨ha, hmp, hpv, hcpu, hpkg, hidx, hxidx, hsec, hgpu⟩ := plain_parts h
  intro l hl
  rcases lines_cases hl with hl | hl | hl | hl | hl | hl | hl | hl | hl | hl | hl
  · exact atpat_not_in_line rfl
      (atFree_header_lines (plainStr_at ha) (plainStr_at hmp) (plainStr_at hpv) l hl)
  · exact atpat_not_in_line rfl
      (atFree_pkg_lines (fun p hp => plainStr_at (hpkg p hp)) l hl)
  · exact atpat_not_in_line rfl
      (atFree_opt_lines (by decide) (by decide)
        (fun u hu => plainStr_at (hidx u hu)) l hl)
  · exact atpat_not_in_line rfl
      (atFree_opt_lines (by decide) (by decide)
        (fun u hu => plainStr_at (hxidx u hu)) l hl)
  · exact atpat_not_in_line rfl
      (atFree_opt_lines (by decide) (by decide)
        (fun u hu => plainStr_at (hsec u hu)) l hl)
  · exact close_free_web l hl
  · exact atpat_cls_lines rfl (by decide)
      (fun s hs => plainStr_at (hgpu s hs)) (plainStr_at hcpu) l hl
  · unfold concLines at hl
    split at hl
    · simp only [List.mem_cons, List.not_mem_nil, or_false] at hl
      subst hl
      exact conc_line_free_web _
    · exact absurd hl (List.not_mem_nil l)
  · exact classHead_free_web l hl
  · exact atpat_batch_lines rfl (by decide) l hl
  · exact endpoint_free_web l hl

theorem no_cit_in_lines {a m : String} {c : Config} {r : List String}
    (h2 : avoidsAll "container_idle_timeout" a m c r) :
    ∀ l ∈ generateLines a m c r,
      ¬ "container_idle_timeout".data <:+: l.data := by
  obtain ⟨ha, hmp, hpv, hcpu, hpkg, hidx, hxidx, hsec, hgpu⟩ := avoids_parts h2
  intro l hl
  rcases lines_cases hl with hl | hl | hl | hl | hl | hl | hl | hl | hl | hl | hl
  · exact cit_header_lines ha hmp hpv l hl
  · exact cit_pkg_lines hpkg l hl
  · exact cit_opt_lines (by decide) (by decide) hidx l hl
  · exact cit_opt_lines (by decide) (by decide) hxidx l hl
  · exact cit_opt_lines (by decide) (by decide) hsec l hl
  · exact close_free_cit l hl
  · exact cit_cls_lines hgpu hcpu l hl
  · unfold concLines at hl
    split at hl
    · simp only [List.mem_cons, List.not_mem_nil, or_false] at hl
      subst hl
      exact conc_line_free_cit _
    · exact absurd hl (List.not_mem_nil l)
  · exact classHead_free_cit l hl
  · exact cit_batch_lines l hl
  · exact endpoint_free_cit l hl

theorem no_conc_in_nondirective_line {a m : String} {c : Config} {r : List String}
    (h : plainInputs a m c r) {l : String} (hl : l ∈ generateLines a m c r) :
    l ∈ concLines (getNat c "concurrent_inputs" 1)
    ∨ ¬ "@modal.concurrent".data <:+: l.data := by
  obtain ⟨ha, hmp, hpv, hcpu, hpkg, hidx, hxidx, hsec, hgpu⟩ := plain_parts h
  rcases lines_cases hl with hl | hl | hl | hl | hl | hl | hl | hl | hl | hl | hl
  · exact Or.inr (atpat_not_in_line rfl
      (atFree_header_lines (plainStr_at ha) (plainStr_at hmp) (plainStr_at hpv) l hl))
  · exact Or.inr (atpat_not_in_line rfl
      (atFree_pkg_lines (fun p hp => plainStr_at (hpkg p hp)) l hl))
  · exact Or.inr (atpat_not_in_line rfl
      (atFree_opt_lines (by decide) (by decide)
        (fun u hu => plainStr_at (hidx u hu)) l hl))
  · exact Or.inr (atpat_not_in_line rfl
      (atFree_opt_lines (by decide) (by decide)
        (fun u hu => plainStr_at (hxidx u hu)) l hl))
  · exact Or.inr (atpat_not_in_line rfl
      (atFree_opt_lines (by decide) (by decide)
        (fun u hu => plainStr_at (hsec u hu)) l hl))
  · exact Or.inr (close_free_conc l hl)
  · exact Or.inr (atpat_cls_lines rfl (by decide)
      (fun s hs => plainStr_at (hgpu s hs)) (plainStr_at hcpu) l hl)
  · exact Or.inl hl
  · exact Or.inr (classHead_free_conc l hl)
  · exact Or.inr (atpat_batch_lines rfl (by decide) l hl)
  · exact Or.inr (endpoint_free_conc l hl)

theorem uv_line_mem (a m : String) (c : Config) (r : List String) :
    "    .uv_pip_install(" ∈ generateLines a m c r := by
  simp [generateLines, headerLines]

theorem fastapi_line_mem (a m : String) (c : Config) (r : List String) :
    "    @modal.fastapi_endpoint(method=\"POST\")" ∈ generateLines a m c r := by
  simp [generateLines, endpointLines]

theorem class_line_mem (a m : String) (c : Config) (r : List String) :
    "class MLflowModel:" ∈ generateLines a m c r := by
  simp [generateLines, classHeadLines]

theorem conc_adjacent {a m : String} {c : Config} {r : List String}
    (hci : 1 < getNat c "concurrent_inputs" 1) :
    containsStr (generate_modal_app_code a m c r)
      ("@modal.concurrent(max_inputs=" ++ natStr (getNat c "concurrent_inputs" 1)
        ++ ")\nclass MLflowModel:") := by
  show _ <:+: _
  rw [generate_data]
  have hpat : ("@modal.concurrent(max_inputs="
        ++ natStr (getNat c "concurrent_inputs" 1) ++ ")\nclass MLflowModel:").data
      = ("@modal.concurrent(max_inputs="
          ++ natStr (getNat c "concurrent_inputs" 1) ++ ")").data
        ++ '\n' :: "class MLflowModel:".data := by
    simp [strData_append, List.append_assoc]
  have hlines : generateLines a m c r
      = (headerLines a m (getStr c "python_version" "3.10")
          ++ pkgLines (r ++ getStrList c "extra_pip_packages")
          ++ optLines "        index_url=" (getStrOpt c "pip_index_url") ","
          ++ optLines "        extra_index_url=" (getStrOpt c "pip_extra_index_url") ","
          ++ optLines "        secrets=[modal.Secret.from_name("
              (getStrOpt c "modal_secret") ")],"
          ++ closeImageLines
          ++ clsLines (getGpu c) (getNat c "memory" 512) (getStr c "cpu" "1.0")
              (getNat c "timeout" 300) (getNat c "scaledown_window" 300)
              (getNat c "min_containers" 0) (getNat c "max_containers" 10))
        ++ ("@modal.concurrent(max_inputs="
              ++ natStr (getNat c "concurrent_inputs" 1) ++ ")")
          :: "class MLflowModel:"
          :: (["    @modal.enter()",
               "    def load_model(self):",
               "        import mlflow.pyfunc",
               "        self.model = mlflow.pyfunc.load_model(MODEL_DIR)",
               ""]
              ++ batchLines (getBool c "enable_batching" false)
                  (getNat c "max_batch_size" 8) (getNat c "batch_wait_ms" 100)
              ++ endpointLines) := by
    rw [generateLines, concLines, if_pos hci, classHeadLines]
    simp [List.append_assoc]
  rw [hpat, hlines, List.map_append, List.map_cons, List.map_cons]
  exact adj_infix_join '\n' _ _ _ _

/-- C1: for every configuration (with the interpolated option strings
free of the template meta-characters `@` and `"`), when
`concurrent_inputs` is 1 — the default — the generated source contains no
`@modal.concurrent` directive at all; when it is greater than 1 the
directive appears with `max_inputs` equal to the configured value, on the
line immediately before the serving-class declaration line. -/
theorem claim_C1 (a m : String) (c : Config) (r : List String)
    (h : plainInputs a m c r) :
    (getNat c "concurrent_inputs" 1 = 1 →
      ¬ containsStr (generate_modal_app_code a m c r) "@modal.concurrent")
    ∧ (1 < getNat c "concurrent_inputs" 1 →
      containsStr (generate_modal_app_code a m c r)
        ("@modal.concurrent(max_inputs="
          ++ natStr (getNat c "concurrent_inputs" 1) ++ ")\nclass MLflowModel:")) := by
  constructor
  · intro hci
    apply not_contains_of_lines (by decide) (by decide)
    intro l hl
    rcases no_conc_in_nondirective_line h hl with hmem | hfree
    · rw [hci] at hmem
      simp [concLines] at hmem
    · exact hfree
  · exact conc_adjacent

/-- C1 witness: the integration test's configuration with
`concurrent_inputs = 5`; the directive with `max_inputs=5` sits directly
above `class MLflowModel:`. -/
theorem claim_C1_witness :
    plainInputs "test-app" "/tmp/model" apiTestConfig ["pandas", "numpy"]
    ∧ containsStr
        (generate_modal_app_code "test-app" "/tmp/model" apiTestConfig
          ["pandas", "numpy"])
        "@modal.concurrent(max_inputs=5)\nclass MLflowModel:" := by
  refine ⟨by decide, ?_⟩
  have h := (claim_C1 "test-app" "/tmp/model" apiTestConfig ["pandas", "numpy"]
    (by decide)).2 (by decide)
  have he : ("@modal.concurrent(max_inputs="
      ++ natStr (getNat apiTestConfig "concurrent_inputs" 1)
      ++ ")\nclass MLflowModel:")
      = "@modal.concurrent(max_inputs=5)\nclass MLflowModel:" := by decide
  rw [he] at h
  exact h

/-- C2: for every configuration (interpolated strings plain and none of
them containing the deprecated parameter name), the generated source uses
the current mechanisms — it contains `uv_pip_install` and
`@modal.fastapi_endpoint` — and contains neither the deprecated
`@modal.web_endpoint` decorator nor the deprecated
`container_idle_timeout` parameter name. -/
theorem claim_C2 (a m : String) (c : Config) (r : List String)
    (h : plainInputs a m c r)
    (h2 : avoidsAll "container_idle_timeout" a m c r) :
    containsStr (generate_modal_app_code a m c r) "uv_pip_install"
    ∧ containsStr (generate_modal_app_code a m c r) "@modal.fastapi_endpoint"
    ∧ ¬ containsStr (generate_modal_app_code a m c r) "@modal.web_endpoint"
    ∧ ¬ containsStr (generate_modal_app_code a m c r) "container_idle_timeout" :=
  ⟨contains_of_line (uv_line_mem a m c r) (by decide),
   contains_of_line (fastapi_line_mem a m c r) (by decide),
   not_contains_of_lines (by decide) (by decide) (no_web_in_lines h),
   not_contains_of_lines (by decide) (by decide) (no_cit_in_lines h2)⟩

/-- C2 witness: the integration test's configuration; the generated code
uses the current install call and endpoint decorator and avoids the
deprecated ones. -/
theorem claim_C2_witness :
    plainInputs "test-app" "/tmp/model" apiTestConfig ["pandas", "numpy"]
    ∧ avoidsAll "container_idle_timeout" "test-app" "/tmp/model" apiTestConfig
        ["pandas", "numpy"]
    ∧ containsStr
        (generate_modal_app_code "test-app" "/tmp/model" apiTestConfig
          ["pandas", "numpy"]) "uv_pip_install" :=
  ⟨by decide, by decide,
    (claim_C2 "test-app" "/tmp/model" apiTestConfig ["pandas", "numpy"]
      (by decide) (by decide)).1⟩

/-- C6: the GPU specification is emitted literally in the generated
source — `gpu=None` when the option is absent or None, `gpu="H100"` for a
bare string, `gpu="H100:8"` preserving the replica-count suffix, and
`gpu=["H100", "A100"]` for a fallback list, order and quoting
preserved. -/
theorem claim_C6 :
    containsStr (generate_modal_app_code "test" "/tmp" (gpuTestConfig .vNone) [])
      "gpu=None"
    ∧ containsStr (generate_modal_app_code "test" "/tmp"
        (removeKey (gpuTestConfig .vNone) "gpu") []) "gpu=None"
    ∧ containsStr (generate_modal_app_code "test" "/tmp"
        (gpuTestConfig (.vStr "H100")) []) "gpu=\"H100\""
    ∧ containsStr (generate_modal_app_code "test" "/tmp"
        (gpuTestConfig (.vStr "H100:8")) []) "gpu=\"H100:8\""
    ∧ containsStr (generate_modal_app_code "test" "/tmp"
        (gpuTestConfig (.vList ["H100", "A100"])) []) "gpu=[\"H100\", \"A100\"]" := by
  refine ⟨?_, ?_, ?_, ?_, ?_⟩
  · exact contains_of_line (l := "    gpu=None,") (by decide) (by decide)
  · exact contains_of_line (l := "    gpu=None,") (by decide) (by decide)
  · exact contains_of_line (l := "    gpu=\"H100\",") (by decide) (by decide)
  · exact contains_of_line (l := "    gpu=\"H100:8\",") (by decide) (by decide)
  · exact contains_of_line (l := "    gpu=[\"H100\", \"A100\"],") (by decide) (by decide)

/-- C7: the generator is deterministic — two calls with identical
app name, model path, configuration and requirements return byte-identical
output text. -/
theorem claim_C7 (a₁ a₂ m₁ m₂ : String) (c₁ c₂ : Config) (r₁ r₂ : List String)
    (ha : a₁ = a₂) (hm : m₁ = m₂) (hc : c₁ = c₂) (hr : r₁ = r₂) :
    generate_modal_app_code a₁ m₁ c₁ r₁ = generate_modal_app_code a₂ m₂ c₂ r₂
    ∧ (generate_modal_app_code a₁ m₁ c₁ r₁).data
      = (generate_modal_app_code a₂ m₂ c₂ r₂).data := by
  subst ha
  subst hm
  subst hc
  subst hr
  exact ⟨rfl, rfl⟩

/-- C7 witness: two generator calls on the integration test's inputs
yield the same text. -/
theorem claim_C7_witness :
    generate_modal_app_code "test-app" "/tmp/model" apiTestConfig ["pandas", "numpy"]
      = generate_modal_app_code "test-app" "/tmp/model" apiTestConfig
          ["pandas", "numpy"] :=
  (claim_C7 "test-app" "test-app" "/tmp/model" "/tmp/model" apiTestConfig
    apiTestConfig ["pandas", "numpy"] ["pandas", "numpy"] rfl rfl rfl rfl).1

theorem create_deployment_config {registry : String → RegistryResult}
    {submit : String → String → PlatformResponse}
    {name model_uri : String} {cfg : Config} {rec : DeploymentRecord}
    (hok : create_deployment registry submit name model_uri cfg = .ok rec) :
    rec.config = apply_custom_config default_deployment_config cfg := by
  unfold create_deployment at hok
  cases hval : validate_gpu_config
      (getGpu (apply_custom_config default_deployment_config cfg)) with
  | error e =>
    rw [hval] at hok
    cases hok
  | ok u =>
    rw [hval] at hok
    cases hok
    rfl

/-- C8: for every successful `create_deployment` call, the returned
deployment record is the platform response augmented with the effective
configuration used — every user-supplied option under its current name
(the deprecated aliases are translated away during normalization) appears
in the record's `config` mapping with exactly the supplied value. -/
theorem claim_C8 (registry : String → RegistryResult)
    (submit : String → String → PlatformResponse)
    (name model_uri : String) (cfg : Config) (k : String) (v : ConfigVal)
    (rec : DeploymentRecord)
    (hnd : (keysOf cfg).Nodup)
    (hk1 : k ≠ "container_idle_timeout") (hk2 : k ≠ "allow_concurrent_inputs")
    (hv : getVal cfg k = some v)
    (hok : create_deployment registry submit name model_uri cfg = .ok rec) :
    getVal rec.config k = some v := by
  rw [create_deployment_config hok]
  unfold apply_custom_config
  exact getVal_merge_mem (nodup_remap _ _ _ (nodup_remap _ _ _ hnd))
    (getVal_remap_other hk2 (getVal_remap_other hk1 hv))

/-- C8 witness: a deployment created with `extra_pip_packages`
`["structlog>=24.0"]` (as the basic end-to-end test does) echoes exactly
that value in the returned record's configuration. -/
theorem claim_C8_witness :
    getVal ({ name := "e2e-test-basic",
              endpoint_url := "https://x--e2e-test-basic-predict.modal.run",
              config := apply_custom_config default_deployment_config
                [("extra_pip_packages", ConfigVal.vList ["structlog>=24.0"])] }
        : DeploymentRecord).config "extra_pip_packages"
      = some (.vList ["structlog>=24.0"]) :=
  claim_C8 (fun _ => ⟨"/tmp/model", ["pandas"]⟩)
    (fun n _ => ⟨n, "https://x--e2e-test-basic-predict.modal.run"⟩)
    "e2e-test-basic" "runs:/abc/model"
    [("extra_pip_packages", ConfigVal.vList ["structlog>=24.0"])]
    "extra_pip_packages" (.vList ["structlog>=24.0"])
    { name := "e2e-test-basic",
      endpoint_url := "https://x--e2e-test-basic-predict.modal.run",
      config := apply_custom_config default_deployment_config
        [("extra_pip_packages", ConfigVal.vList ["structlog>=24.0"])] }
    (by decide) (by decide) (by decide) (by decide) rfl

/-- C9: the streaming test's fallback URL guess — for endpoint URLs
containing `/predict` the stream URL is the URL with `/predict` replaced
by `/predict_stream`; otherwise it is the URL with `-predict.` replaced
by `-predict-stream.` (embedded from `tests/e2e_test.py`). -/
theorem claim_C9 (url : String) :
    ("/predict".data <:+: url.data →
      guess_stream_url url = pyReplace url "/predict" "/predict_stream")
    ∧ (¬ "/predict".data <:+: url.data →
      guess_stream_url url = pyReplace url "-predict." "-predict-stream.") := by
  constructor
  · intro h
    unfold guess_stream_url
    rw [if_pos ((strContainsB_iff url "/predict").mpr h)]
  · intro h
    unfold guess_stream_url
    rw [if_neg (fun hb => h ((strContainsB_iff url "/predict").mp hb))]

/-- C9 witness: a path-based endpoint URL maps to its `/predict_stream`
variant, and a subdomain-based one to its `-predict-stream.` variant. -/
theorem claim_C9_witness :
    ("/predict".data <:+: "https://foo.modal.run/predict".data)
    ∧ guess_stream_url "https://foo.modal.run/predict"
        = "https://foo.modal.run/predict_stream"
    ∧ guess_stream_url "https://user--app-predict.modal.run"
        = "https://user--app-predict-stream.modal.run" := by
  refine ⟨by decide, ?_, ?_⟩
  · rw [(claim_C9 "https://foo.modal.run/predict").1 (by decide)]
    decide
  · rw [(claim_C9 "https://user--app-predict.modal.run").2 (by decide)]
    decide

theorem conc_in_directive (ci : Nat) :
    "@modal.concurrent".data <:+:
      ("@modal.concurrent(max_inputs=" ++ natStr ci ++ ")").data := by
  apply List.IsPrefix.isInfix
  refine ⟨"(max_inputs=".data ++ ((natStr ci).data ++ ")".data), ?_⟩
  simp [strData_append, List.append_assoc]

theorem countP_zero_of_free {L : List String}
    (hL : ∀ l ∈ L, ¬ "@modal.concurrent".data <:+: l.data) :
    L.countP lineHasConc = 0 :=
  List.countP_eq_zero.mpr (fun l hl => by simp [lineHasConc, hL l hl])

/-- C10: for every configuration (interpolated option strings plain), the
generated source declares the serving class under the fixed name
`MLflowModel` — the line `class MLflowModel:` occurs among the generated
lines — and the concurrency directive, when emitted, occurs on exactly
one line, the one immediately preceding that class declaration, so it
decorates the class and not any method. -/
theorem claim_C10 (a m : String) (c : Config) (r : List String)
    (h : plainInputs a m c r) :
    "class MLflowModel:" ∈ generateLines a m c r
    ∧ (generateLines a m c r).countP lineHasConc
        = (if 1 < getNat c "concurrent_inputs" 1 then 1 else 0)
    ∧ (1 < getNat c "concurrent_inputs" 1 →
        containsStr (generate_modal_app_code a m c r)
          ("@modal.concurrent(max_inputs="
            ++ natStr (getNat c "concurrent_inputs" 1) ++ ")\nclass MLflowModel:")) := by
  obtain ⟨ha, hmp, hpv, hcpu, hpkg, hidx, hxidx, hsec, hgpu⟩ := plain_parts h
  refine ⟨class_line_mem a m c r, ?_, conc_adjacent⟩
  have h1 := countP_zero_of_free (fun l hl => atpat_not_in_line rfl
    (atFree_header_lines (plainStr_at ha) (plainStr_at hmp) (plainStr_at hpv) l hl))
  have h2 := countP_zero_of_free (fun l hl => atpat_not_in_line rfl
    (atFree_pkg_lines (fun p hp => plainStr_at (hpkg p hp)) l hl))
  have h3 := countP_zero_of_free
    (L := optLines "        index_url=" (getStrOpt c "pip_index_url") ",")
    (fun l hl => atpat_not_in_line rfl
      (atFree_opt_lines (by decide) (by decide)
        (fun u hu => plainStr_at (hidx u hu)) l hl))
  have h4 := countP_zero_of_free
    (L := optLines "        extra_index_url=" (getStrOpt c "pip_extra_index_url") ",")
    (fun l hl => atpat_not_in_line rfl
      (atFree_opt_lines (by decide) (by decide)
        (fun u hu => plainStr_at (hxidx u hu)) l hl))
  have h5 := countP_zero_of_free
    (L := optLines "        secrets=[modal.Secret.from_name("
      (getStrOpt c "modal_secret") ")],")
    (fun l hl => atpat_not_in_line rfl
      (atFree_opt_lines (by decide) (by decide)
        (fun u hu => plainStr_at (hsec u hu)) l hl))
  have h6 := countP_zero_of_free close_free_conc
  have h7 := countP_zero_of_free
    (L := clsLines (getGpu c) (getNat c "memory" 512) (getStr c "cpu" "1.0")
      (getNat c "timeout" 300) (getNat c "scaledown_window" 300)
      (getNat c "min_containers" 0) (getNat c "max_containers" 10))
    (fun l hl => atpat_cls_lines rfl (by decide)
      (fun s hs => plainStr_at (hgpu s hs)) (plainStr_at hcpu) l hl)
  have h9 := countP_zero_of_free classHead_free_conc
  have h10 := countP_zero_of_free
    (L := batchLines (getBool c "enable_batching" false)
      (getNat c "max_batch_size" 8) (getNat c "batch_wait_ms" 100))
    (fun l hl => atpat_batch_lines rfl (by decide) l hl)
  have h11 := countP_zero_of_free endpoint_free_conc
  have hc : (concLines (getNat c "concurrent_inputs" 1)).countP lineHasConc
      = if 1 < getNat c "concurrent_inputs" 1 then 1 else 0 := by
    by_cases hci : 1 < getNat c "concurrent_inputs" 1
    · have hb : lineHasConc ("@modal.concurrent(max_inputs="
          ++ natStr (getNat c "concurrent_inputs" 1) ++ ")") = true := by
        unfold lineHasConc
        exact decide_eq_true (conc_in_directive _)
      simp [concLines, if_pos hci, List.countP_cons, hb]
    · simp [concLines, if_neg hci]
  simp only [generateLines, List.countP_append, h1, h2, h3, h4, h5, h6, h7,
    h9, h10, h11, hc]
  simp

/-- C10 witness: the integration test's configuration with
`concurrent_inputs = 5`; the class-declaration line is generated and the
directive count over the generated lines is exactly one. -/
theorem claim_C10_witness :
    plainInputs "test-app" "/tmp/model" apiTestConfig ["pandas", "numpy"]
    ∧ (generateLines "test-app" "/tmp/model" apiTestConfig
        ["pandas", "numpy"]).countP lineHasConc = 1 := by
  refine ⟨by decide, ?_⟩
  have h := (claim_C10 "test-app" "/tmp/model" apiTestConfig ["pandas", "numpy"]
    (by decide)).2.1
  simpa using h
